import Mathlib

/-!
Shallow embedding of the luno trading bot's strategy/execution core.
Market quantities (prices, sizes, PnL) are modelled as rationals; time
instants are rationals with 0 standing for Go's zero `time.Time`
(`IsZero`).  Fallible operations return an `Except` value paired with
the successor state, mirroring Go's `(error, receiver mutation)`.
-/

namespace Luno

/-- Trading signal, mirroring `Signal` in `bot/interfaces.go`
(`SignalNone`, `SignalBuy`, `SignalSell`). -/
inductive Signal
| none
| buy
| sell
deriving DecidableEq, Repr

/-- Quote snapshot, mirroring `MarketData` in `bot/interfaces.go`. -/
structure MarketData where
  bid : ℚ
  ask : ℚ
  timestamp : ℚ
deriving DecidableEq, Repr

/-- The fields of `Config` (`bot/interfaces.go`) that the embedded
core reads.  Fields the embedded functions never touch are omitted. -/
structure Config where
  pair : String := ""
  entryThreshold : ℚ := 0
  exitThreshold : ℚ := 0
  stakeSize : ℚ := 0
  cooldown : ℚ := 0
  positionLimit : ℚ := 0
  maxDrawdown : ℚ := 0
  initialEquity : ℚ := 0
  vwapSource : String := ""
  vwapOrderbookDepthLevels : ℕ := 0
  vwapHybridWeight : ℚ := 0
deriving DecidableEq, Repr

/-- Mid-price `(bid+ask)/2`, the reference price used throughout. -/
def MarketData.mid (md : MarketData) : ℚ := (md.bid + md.ask) / 2

/-- Errors a `SimulatedExecutor.Execute` call can return. -/
inductive SimError
| stakeLimit
| drawdown
deriving DecidableEq, Repr

/-- State of the simulated executor (`SimulatedExecutor` struct).
`lastTradeTime = 0` models Go's zero `time.Time`. -/
structure SimulatedExecutor where
  position : ℚ := 0
  entryPrice : ℚ := 0
  totalPnL : ℚ := 0
  peakPnL : ℚ := 0
  maxDrawdownExceeded : Bool := false
  lastTradeTime : ℚ := 0
deriving DecidableEq, Repr

/-- Embedding of `SimulatedExecutor.Execute`: cooldown gate first
(`!LastTradeTime.IsZero() && Timestamp.Sub(LastTradeTime) < Cooldown`),
then `LastTradeTime` is stamped, then the signal switch with the
position-limit check on entry and PnL/drawdown bookkeeping on exit.
On a drawdown breach the error is returned before `Position = 0` runs,
so the position is left open. -/
def SimulatedExecutor.execute (e : SimulatedExecutor) (sig : Signal)
    (md : MarketData) (cfg : Config) :
    Except SimError Unit × SimulatedExecutor :=
  if e.lastTradeTime ≠ 0 ∧ md.timestamp - e.lastTradeTime < cfg.cooldown then
    (Except.ok (), e)
  else
    let e1 := { e with lastTradeTime := md.timestamp }
    let price := md.mid
    match sig with
    | .none => (Except.ok (), e1)
    | .buy =>
      if e1.position ≠ 0 then (Except.ok (), e1)
      else if cfg.stakeSize > cfg.positionLimit then
        (Except.error SimError.stakeLimit, e1)
      else
        (Except.ok (), { e1 with position := cfg.stakeSize, entryPrice := price })
    | .sell =>
      if e1.position = 0 then (Except.ok (), e1)
      else
        let profit := (price - e1.entryPrice) * e1.position
        let pnl := e1.totalPnL + profit
        let peak := if pnl > e1.peakPnL then pnl else e1.peakPnL
        let e2 := { e1 with totalPnL := pnl, peakPnL := peak }
        if peak - pnl > cfg.maxDrawdown then
          (Except.error SimError.drawdown, { e2 with maxDrawdownExceeded := true })
        else
          (Except.ok (), { e2 with position := 0 })

/-- Embedding of `SimulatedExecutor.CancelAll`: flattens any open
position, touching nothing else. -/
def SimulatedExecutor.cancelAll (e : SimulatedExecutor) :
    Except SimError Unit × SimulatedExecutor :=
  (Except.ok (), { e with position := 0 })

/-- One call made to a simulated executor over its lifetime. -/
inductive SimOp
| exec (sig : Signal) (md : MarketData) (cfg : Config)
| cancel

/-- Successor state of one call (the returned error is discarded, as
callers that keep trading do). -/
def SimulatedExecutor.stepOp (e : SimulatedExecutor) : SimOp → SimulatedExecutor
| .exec sig md cfg => (e.execute sig md cfg).2
| .cancel => (e.cancelAll).2

/-- State after a whole sequence of `Execute`/`CancelAll` calls. -/
def SimulatedExecutor.runOps (e : SimulatedExecutor) : List SimOp → SimulatedExecutor
| [] => e
| op :: rest => (e.stepOp op).runOps rest

/-- Stake non-negativity of the config carried by one call. -/
def SimOp.stakeNonneg : SimOp → Prop
| .exec _ _ cfg => 0 ≤ cfg.stakeSize
| .cancel => True

/-- Errors a `LunoExecutor.Execute` call can return. -/
inductive LunoError
| stakeLimit
| broker
deriving DecidableEq, Repr

/-- State of the live executor (`LunoExecutor` struct in the bot
package): just the locally tracked position and entry price. -/
structure LunoExecutor where
  position : ℚ := 0
  entryPrice : ℚ := 0
deriving DecidableEq, Repr

/-- Embedding of `LunoExecutor.Execute`.  The broker call
`PostLimitOrder` is abstracted by the oracle `brokerOk`: when it is
false the call fails and the error is returned with no state change,
exactly as in the source where the mutation follows the successful
call. -/
def LunoExecutor.execute (e : LunoExecutor) (sig : Signal)
    (md : MarketData) (cfg : Config) (brokerOk : Bool) :
    Except LunoError Unit × LunoExecutor :=
  let price := md.mid
  match sig with
  | .none => (Except.ok (), e)
  | .buy =>
    if e.position ≠ 0 then (Except.ok (), e)
    else if cfg.stakeSize > cfg.positionLimit then
      (Except.error LunoError.stakeLimit, e)
    else if brokerOk then
      (Except.ok (), { e with position := cfg.stakeSize, entryPrice := price })
    else (Except.error LunoError.broker, e)
  | .sell =>
    if e.position = 0 then (Except.ok (), e)
    else if brokerOk then (Except.ok (), { e with position := 0 })
    else (Except.error LunoError.broker, e)

/-- State after a sequence of live `Execute` calls, each with its own
signal, quote, config and broker outcome. -/
def LunoExecutor.runOps (e : LunoExecutor) :
    List (Signal × MarketData × Config × Bool) → LunoExecutor
| [] => e
| (sig, md, cfg, ok) :: rest => ((e.execute sig md cfg ok).2).runOps rest

/-- State of `SMAStrategy` (`bot/strategy_sma.go`): window sizes plus
the rolling buffers and running sums. -/
structure SMAStrategy where
  shortWindow : ℕ
  longWindow : ℕ
  shortBuf : List ℚ := []
  longBuf : List ℚ := []
  shortSum : ℚ := 0
  longSum : ℚ := 0
deriving DecidableEq, Repr

/-- Embedding of `SMAStrategy.Next`: append the mid-price to both
buffers, trim each buffer that exceeds its window (subtracting the
evicted head from the running sum), emit `none` until the long buffer
is full, otherwise compare the averages against the entry/exit
thresholds. -/
def SMAStrategy.next (s : SMAStrategy) (md : MarketData) (cfg : Config) :
    Signal × SMAStrategy :=
  let price := md.mid
  let sb0 := s.shortBuf ++ [price]
  let ssum0 := s.shortSum + price
  let sb := if sb0.length > s.shortWindow then sb0.tail else sb0
  let ssum := if sb0.length > s.shortWindow then ssum0 - sb0.headD 0 else ssum0
  let lb0 := s.longBuf ++ [price]
  let lsum0 := s.longSum + price
  let lb := if lb0.length > s.longWindow then lb0.tail else lb0
  let lsum := if lb0.length > s.longWindow then lsum0 - lb0.headD 0 else lsum0
  let s' := { s with shortBuf := sb, longBuf := lb, shortSum := ssum, longSum := lsum }
  if lb.length < s.longWindow then (.none, s')
  else
    let shortAvg := ssum / (s.shortWindow : ℚ)
    let longAvg := lsum / (s.longWindow : ℚ)
    if shortAvg > longAvg + cfg.entryThreshold then (.buy, s')
    else if shortAvg < longAvg - cfg.exitThreshold then (.sell, s')
    else (.none, s')

/-- Signals produced by feeding a list of quotes through one SMA
strategy instance, threading its state. -/
def SMAStrategy.run (s : SMAStrategy) (cfg : Config) : List MarketData → List Signal
| [] => []
| md :: rest =>
  let r := s.next md cfg
  r.1 :: r.2.run cfg rest

/-- Embedding of `CompositeStrategy.Next`: count sub-strategy buys and
sells, return `buy` when the buy count equals the number of
sub-strategies, else `sell` on unanimous sells, else `none`.  A
sub-strategy is modelled by its signal function; the claim settled
against this definition concerns the empty composite, for which no
sub-strategy state exists. -/
def CompositeStrategy.next (strategies : List (MarketData → Config → Signal))
    (md : MarketData) (cfg : Config) : Signal :=
  let sigs := strategies.map (fun strat => strat md cfg)
  let buyCount := sigs.countP (fun s => s == Signal.buy)
  let sellCount := sigs.countP (fun s => s == Signal.sell)
  let n := strategies.length
  if buyCount = n then .buy
  else if sellCount = n then .sell
  else .none

/-- `KellySizer` (win probability and win/loss ratio fields). -/
structure KellySizer where
  winProb : ℚ
  winLoss : ℚ
deriving DecidableEq, Repr

/-- Embedding of `KellySizer.Size`:
`f = winProb - (1-winProb)/winLoss`, result
`math.Max(0, math.Min(f*equity, cfg.StakeSize))`. -/
def KellySizer.Size (k : KellySizer) (equity : ℚ) (cfg : Config) : ℚ :=
  let f := k.winProb - (1 - k.winProb) / k.winLoss
  max 0 (min (f * equity) cfg.stakeSize)

/-- Clamp as the spec words it: restrict `x` to the interval
from `lo` to `hi`. -/
def clampSpec (x lo hi : ℚ) : ℚ := min hi (max lo x)

/-- One order-book level: price and volume. -/
structure OrderBookEntry where
  price : ℚ
  volume : ℚ
deriving DecidableEq, Repr

/-- An order book: bids (descending) and asks (ascending). -/
structure OrderBook where
  bids : List OrderBookEntry
  asks : List OrderBookEntry
deriving DecidableEq, Repr

/-- The contiguous-bucket weighting loop shared verbatim by
`computeHistoricalWeights` and `computeOrderbookWeights`: with
`n = vols.length` and `bucket = n/N`, slice `i` covers indices
`floor(i*bucket)` up to `floor((i+1)*bucket)` (the last slice runs to
`n`) and weighs its volume against the total, falling back to `1/N`
when the total volume is not positive. -/
def bucketWeights (vols : List ℚ) (N : ℕ) : List ℚ :=
  let n := vols.length
  let total := vols.sum
  (List.range N).map (fun i =>
    let s := i * n / N
    let e := if i = N - 1 then n else (i + 1) * n / N
    let sumVol := ((vols.drop s).take (e - s)).sum
    if 0 < total then sumVol / total else 1 / (N : ℚ))

/-- Embedding of `VWAPExecutor.computeHistoricalWeights`.  The
`GetCandles` call is abstracted to an optional list of per-minute
volumes (`Option.none` = client error); error or an empty candle list
falls back to equal weights, otherwise the bucket weighting runs over
all returned candles. -/
def VWAPExecutor.computeHistoricalWeights (candles : Option (List ℚ))
    (N : ℕ) : List ℚ :=
  match candles with
  | Option.none => List.replicate N (1 / (N : ℚ))
  | Option.some vols =>
    if vols.length = 0 then List.replicate N (1 / (N : ℚ))
    else bucketWeights vols N

/-- Embedding of `VWAPExecutor.computeOrderbookWeights`.  The
`GetOrderBook` call is abstracted to an optional book; on error or an
empty side the weights fall back to `1/N`.  The side is the asks
unless the signal is a sell, and the bucket weighting runs over the
volumes of every returned level of that side. -/
def VWAPExecutor.computeOrderbookWeights (ob : Option OrderBook)
    (cfg : Config) (sig : Signal) (N : ℕ) : List ℚ :=
  match ob with
  | Option.none => List.replicate N (1 / (N : ℚ))
  | Option.some book =>
    let items := if sig = .sell then book.bids else book.asks
    if items.length = 0 then List.replicate N (1 / (N : ℚ))
    else bucketWeights (items.map OrderBookEntry.volume) N

/-- Modelled from the spec: the claim's reading of
`computeOrderbookWeights`, in which only the top
`cfg.VWAPOrderbookDepthLevels` price levels of the chosen side feed
the bucket weighting. -/
def computeOrderbookWeightsSpec (ob : Option OrderBook) (cfg : Config)
    (sig : Signal) (N : ℕ) : List ℚ :=
  match ob with
  | Option.none => List.replicate N (1 / (N : ℚ))
  | Option.some book =>
    let items := (if sig = .sell then book.bids else book.asks).take
      cfg.vwapOrderbookDepthLevels
    if items.length = 0 then List.replicate N (1 / (N : ℚ))
    else bucketWeights (items.map OrderBookEntry.volume) N

/-- The weight-selection switch at the top of `VWAPExecutor.Execute`:
dispatch on `cfg.VWAPSource`, blending historical and order-book
weights pointwise in the hybrid case, defaulting to equal weights. -/
def VWAPExecutor.computeWeights (cfg : Config) (sig : Signal)
    (candles : Option (List ℚ)) (ob : Option OrderBook) (N : ℕ) : List ℚ :=
  match cfg.vwapSource with
  | "historical" => VWAPExecutor.computeHistoricalWeights candles N
  | "orderbook" => VWAPExecutor.computeOrderbookWeights ob cfg sig N
  | "hybrid" =>
    let hist := VWAPExecutor.computeHistoricalWeights candles N
    let book := VWAPExecutor.computeOrderbookWeights ob cfg sig N
    List.zipWith
      (fun h b => cfg.vwapHybridWeight * h + (1 - cfg.vwapHybridWeight) * b)
      hist book
  | _ => List.replicate N (1 / (N : ℚ))

/-- The per-slice stake sizes of `VWAPExecutor.Execute`'s loop
(`sliceCfg.StakeSize = cfg.StakeSize * weights[i]`); over a fully
completed execution these are exactly the sizes passed to
`SaveSlice`. -/
def VWAPExecutor.sliceSizes (cfg : Config) (weights : List ℚ) : List ℚ :=
  weights.map (fun w => cfg.stakeSize * w)

/-- The slice-count normalisation in `NewVWAPExecutor`: any requested
count of at most one becomes one. -/
def newVWAPSlices (slices : ℤ) : ℕ :=
  if slices ≤ 1 then 1 else slices.toNat

/-- Fuel-bounded unfolding of the grid loop
`for e := start; e <= stop; e += step`. -/
def thresholdGridAux (fuel : ℕ) (e stop step : ℚ) : List ℚ :=
  match fuel with
  | 0 => []
  | fuel + 1 =>
    if e ≤ stop then e :: thresholdGridAux fuel (e + step) stop step else []

/-- The grid points visited by the `/thresholds` handler's loop; for a
positive step the fuel bounds the iteration count, so the list is the
full loop unfolding. -/
def thresholdGrid (start stop step : ℚ) : List ℚ :=
  thresholdGridAux ((⌊(stop - start) / step⌋).toNat + 1) start stop step

/-- Embedding of the simplified single-pass simulation inside the
`/thresholds` handler: enter when the price exceeds the first close by
the `e` fraction, exit when the price falls the `x` fraction below the
entry, charging `(entry+price)*feeRate` per round trip.  Returns
`(pnlTotal, wins, trades)`. -/
def simulateThreshold (closes : List ℚ) (fee e x : ℚ) : ℚ × ℕ × ℕ :=
  let c0 := closes.headD 0
  let final := closes.foldl
    (fun (st : Bool × ℚ × ℚ × ℕ × ℕ) price =>
      let inPos0 := st.1
      let entry0 := st.2.1
      let inPos := if ¬inPos0 ∧ price > c0 * (1 + e) then true else inPos0
      let entry := if ¬inPos0 ∧ price > c0 * (1 + e) then price else entry0
      if inPos ∧ price < entry * (1 - x) then
        let profit := (price - entry) - (entry + price) * fee
        (false, entry, st.2.2.1 + profit,
          (if profit > 0 then st.2.2.2.1 + 1 else st.2.2.2.1), st.2.2.2.2 + 1)
      else (inPos, entry, st.2.2.1, st.2.2.2.1, st.2.2.2.2))
    (false, 0, 0, 0, 0)
  (final.2.2.1, final.2.2.2.1, final.2.2.2.2)

/-- One row of the `/thresholds` response for one `(entry, exit)`
combination. -/
structure ThresholdResult where
  entryThreshold : ℚ
  exitThreshold : ℚ
  totalPnl : ℚ
  winRate : ℚ
deriving DecidableEq, Repr

/-- The result the handler derives from one combination: its simulated
PnL and win rate (`wins/trades*100`, or 0 with no trades). -/
def comboResult (closes : List ℚ) (fee : ℚ) (c : ℚ × ℚ) : ThresholdResult :=
  let r := simulateThreshold closes fee c.1 c.2
  let wr := if 0 < r.2.2 then (r.2.1 : ℚ) / (r.2.2 : ℚ) * 100 else 0
  ⟨c.1, c.2, r.1, wr⟩

/-- The best-so-far update: adopt the new combination only when its
PnL is strictly greater (`pnlTotal > bestPnl`), keeping the incumbent
on ties.  `Option.none` models the handler's `-math.MaxFloat64`
initial best, which the first combination always beats. -/
def bestStep (closes : List ℚ) (fee : ℚ) (best : Option ThresholdResult)
    (c : ℚ × ℚ) : Option ThresholdResult :=
  let r := comboResult closes fee c
  match best with
  | Option.none => Option.some r
  | Option.some b => if r.totalPnl > b.totalPnl then Option.some r else Option.some b

/-- The combinations visited by the nested grid loops, outer entry
ascending then inner exit ascending. -/
def gridCombos (start stop step : ℚ) : List (ℚ × ℚ) :=
  let grid := thresholdGrid start stop step
  grid.flatMap (fun e => grid.map (fun x => (e, x)))

/-- The `/thresholds` handler's per-pair grid search: fold the
best-so-far update over all combinations in iteration order. -/
def runThresholdGridSearch (closes : List ℚ) (fee start stop step : ℚ) :
    Option ThresholdResult :=
  (gridCombos start stop step).foldl (bestStep closes fee) Option.none

/-- C10: a composite strategy with zero sub-strategies answers `buy`
on every call, for every quote and config, since the all-agree buy
check compares the buy count 0 against the sub-strategy count 0 and is
tested before the all-sell check. -/
theorem composite_empty_always_buy (md : MarketData) (cfg : Config) :
    CompositeStrategy.next [] md cfg = Signal.buy := rfl

/-- C9: the Kelly sizer returns the Kelly fraction of equity clamped
between 0 and the configured stake size, the stake size is a hard
ceiling whenever it is non-negative, and the spec's concrete scenario
(winProb 0.6, winLossRatio 2, equity 1000, stakeSize 100) returns
100. -/
theorem kelly_size_clamped (k : KellySizer) (equity : ℚ) (cfg : Config)
    (hstake : 0 ≤ cfg.stakeSize) :
    k.Size equity cfg =
      clampSpec ((k.winProb - (1 - k.winProb) / k.winLoss) * equity) 0 cfg.stakeSize ∧
    k.Size equity cfg ≤ cfg.stakeSize ∧
    KellySizer.Size ⟨3/5, 2⟩ 1000 { stakeSize := 100 } = 100 := by
  refine ⟨?_, ?_, ?_⟩
  · simp only [KellySizer.Size, clampSpec, min_def, max_def]
    split_ifs <;> linarith
  · simp only [KellySizer.Size]
    exact max_le hstake (min_le_right _ _)
  · norm_num [KellySizer.Size]

/-- Witness for C9 at the spec's Scenario C. -/
theorem kelly_size_clamped_witness :
    0 ≤ ({ stakeSize := 100 } : Config).stakeSize ∧
    KellySizer.Size ⟨3/5, 2⟩ 1000 { stakeSize := 100 } ≤
      ({ stakeSize := 100 } : Config).stakeSize :=
  ⟨by norm_num,
    (kelly_size_clamped ⟨3/5, 2⟩ 1000 { stakeSize := 100 } (by norm_num)).2.1⟩

/-- C2 counterexample: a call inside the cooldown window does not
update `lastTradeTime`; with `lastTradeTime = 10`, a quote at time 12
and a 5-unit cooldown, the stored time stays 10, not 12 as the claim
asserts. -/
theorem cooldown_lastTradeTime_not_updated :
    (SimulatedExecutor.execute { lastTradeTime := 10 } Signal.buy
        { bid := 1, ask := 1, timestamp := 12 } { cooldown := 5 }).2.lastTradeTime ≠
      (12 : ℚ) := by
  norm_num [SimulatedExecutor.execute]

/-- C2 amended: a call inside the cooldown window (non-zero
`lastTradeTime` and elapsed time below the cooldown) returns success
and leaves the executor completely unchanged — `lastTradeTime`
included. -/
theorem cooldown_noop_state_unchanged (e : SimulatedExecutor) (sig : Signal)
    (md : MarketData) (cfg : Config) (h0 : e.lastTradeTime ≠ 0)
    (hlt : md.timestamp - e.lastTradeTime < cfg.cooldown) :
    e.execute sig md cfg = (Except.ok (), e) := by
  unfold SimulatedExecutor.execute
  rw [if_pos ⟨h0, hlt⟩]

/-- Witness for C2 at a concrete in-cooldown call. -/
theorem cooldown_noop_state_unchanged_witness :
    ({ lastTradeTime := 10 } : SimulatedExecutor).lastTradeTime ≠ 0 ∧
    (12 : ℚ) - ({ lastTradeTime := 10 } : SimulatedExecutor).lastTradeTime <
      ({ cooldown := 5 } : Config).cooldown ∧
    SimulatedExecutor.execute { lastTradeTime := 10 } Signal.sell
        { bid := 1, ask := 1, timestamp := 12 } { cooldown := 5 } =
      (Except.ok (), { lastTradeTime := 10 }) :=
  ⟨by norm_num, by norm_num,
    cooldown_noop_state_unchanged { lastTradeTime := 10 } Signal.sell
      { bid := 1, ask := 1, timestamp := 12 } { cooldown := 5 }
      (by norm_num) (by norm_num)⟩

/-- C1 counterexample: Scenario D on the code — enter at mid 100 with
stake 1, exit at mid 90 with maxDrawdown 5.  The exit call does return
the drawdown error, but the ledger's position is still 1, not 0: the
early error return precedes the `Position = 0` assignment. -/
theorem scenarioD_position_not_flattened :
    ((SimulatedExecutor.execute {} Signal.buy
        { bid := 100, ask := 100, timestamp := 1 }
        { stakeSize := 1, positionLimit := 10, maxDrawdown := 5 }).2.execute
        Signal.sell { bid := 90, ask := 90, timestamp := 2 }
        { stakeSize := 1, positionLimit := 10, maxDrawdown := 5 }).1 =
      Except.error SimError.drawdown ∧
    ((SimulatedExecutor.execute {} Signal.buy
        { bid := 100, ask := 100, timestamp := 1 }
        { stakeSize := 1, positionLimit := 10, maxDrawdown := 5 }).2.execute
        Signal.sell { bid := 90, ask := 90, timestamp := 2 }
        { stakeSize := 1, positionLimit := 10, maxDrawdown := 5 }).2.position ≠ 0 := by
  norm_num [SimulatedExecutor.execute, MarketData.mid]

/-- C1 amended: when a Sell outside the cooldown window realizes a
loss pushing peak-to-current drawdown above `maxDrawdown`, the call
returns the drawdown error but the position is NOT flattened — it
keeps its pre-call size (PnL, peak and the sticky flag are still
updated). -/
theorem sell_drawdown_error_position_open (e : SimulatedExecutor)
    (md : MarketData) (cfg : Config)
    (hcool : ¬(e.lastTradeTime ≠ 0 ∧ md.timestamp - e.lastTradeTime < cfg.cooldown))
    (hpos : e.position ≠ 0)
    (hdd : (if e.totalPnL + (md.mid - e.entryPrice) * e.position > e.peakPnL
            then e.totalPnL + (md.mid - e.entryPrice) * e.position else e.peakPnL) -
          (e.totalPnL + (md.mid - e.entryPrice) * e.position) > cfg.maxDrawdown) :
    (e.execute Signal.sell md cfg).1 = Except.error SimError.drawdown ∧
    (e.execute Signal.sell md cfg).2.position = e.position ∧
    (e.execute Signal.sell md cfg).2.maxDrawdownExceeded = true := by
  unfold SimulatedExecutor.execute
  rw [if_neg hcool]
  simp only [hpos, ite_false]
  rw [if_pos hdd]
  exact ⟨rfl, rfl, rfl⟩

/-- Witness for C1 amended at Scenario D's exit call. -/
theorem sell_drawdown_error_position_open_witness :
    ¬(({ position := 1, entryPrice := 100, lastTradeTime := 1 } :
        SimulatedExecutor).lastTradeTime ≠ 0 ∧
      (2 : ℚ) - 1 < ({ stakeSize := 1, positionLimit := 10, maxDrawdown := 5 } :
        Config).cooldown) ∧
    (SimulatedExecutor.execute
        { position := 1, entryPrice := 100, lastTradeTime := 1 } Signal.sell
        { bid := 90, ask := 90, timestamp := 2 }
        { stakeSize := 1, positionLimit := 10, maxDrawdown := 5 }).1 =
      Except.error SimError.drawdown ∧
    (SimulatedExecutor.execute
        { position := 1, entryPrice := 100, lastTradeTime := 1 } Signal.sell
        { bid := 90, ask := 90, timestamp := 2 }
        { stakeSize := 1, positionLimit := 10, maxDrawdown := 5 }).2.position = 1 := by
  have h := sell_drawdown_error_position_open
    { position := 1, entryPrice := 100, lastTradeTime := 1 }
    { bid := 90, ask := 90, timestamp := 2 }
    { stakeSize := 1, positionLimit := 10, maxDrawdown := 5 }
    (by norm_num) (by norm_num) (by norm_num [MarketData.mid])
  exact ⟨by norm_num, h.1, h.2.1⟩

/-- C4 counterexample: with short=2, long=3, entryThreshold=0 and
mid-prices [10,10,10,13,13], the produced signals are not
[None,None,None,Buy,None] — on the fifth call the short average 13
still exceeds the long average 12, so the strategy emits Buy again. -/
theorem sma_scenarioA_fifth_not_none :
    SMAStrategy.run { shortWindow := 2, longWindow := 3 } {}
        [ { bid := 10, ask := 10, timestamp := 1 },
          { bid := 10, ask := 10, timestamp := 2 },
          { bid := 10, ask := 10, timestamp := 3 },
          { bid := 13, ask := 13, timestamp := 4 },
          { bid := 13, ask := 13, timestamp := 5 } ] ≠
      [Signal.none, Signal.none, Signal.none, Signal.buy, Signal.none] := by
  have h : SMAStrategy.run { shortWindow := 2, longWindow := 3 } {}
      [ { bid := 10, ask := 10, timestamp := 1 },
        { bid := 10, ask := 10, timestamp := 2 },
        { bid := 10, ask := 10, timestamp := 3 },
        { bid := 13, ask := 13, timestamp := 4 },
        { bid := 13, ask := 13, timestamp := 5 } ] =
      [Signal.none, Signal.none, Signal.none, Signal.buy, Signal.buy] := by
    norm_num [SMAStrategy.run, SMAStrategy.next, MarketData.mid]
  rw [h]
  decide

/-- C4 amended: the same scenario produces exactly
[None,None,None,Buy,Buy] — the long buffer fills on the third sample,
the fourth crosses (11.5 > 11), and the fifth stays crossed
(13 > 12), so the fifth signal is Buy, not None. -/
theorem sma_scenarioA_signals :
    SMAStrategy.run { shortWindow := 2, longWindow := 3 } {}
        [ { bid := 10, ask := 10, timestamp := 1 },
          { bid := 10, ask := 10, timestamp := 2 },
          { bid := 10, ask := 10, timestamp := 3 },
          { bid := 13, ask := 13, timestamp := 4 },
          { bid := 13, ask := 13, timestamp := 5 } ] =
      [Signal.none, Signal.none, Signal.none, Signal.buy, Signal.buy] := by
  norm_num [SMAStrategy.run, SMAStrategy.next, MarketData.mid]

lemma execute_peakPnL_le (e : SimulatedExecutor) (sig : Signal)
    (md : MarketData) (cfg : Config) :
    e.peakPnL ≤ (e.execute sig md cfg).2.peakPnL := by
  unfold SimulatedExecutor.execute
  split
  · exact le_rfl
  · cases sig
    · exact le_rfl
    · dsimp only
      split_ifs <;> exact le_rfl
    · dsimp only
      split_ifs <;> dsimp only <;> first | exact le_rfl | linarith

lemma execute_mdd_mono (e : SimulatedExecutor) (sig : Signal)
    (md : MarketData) (cfg : Config) (h : e.maxDrawdownExceeded = true) :
    (e.execute sig md cfg).2.maxDrawdownExceeded = true := by
  unfold SimulatedExecutor.execute
  split
  · exact h
  · cases sig
    · exact h
    · dsimp only
      split_ifs <;> exact h
    · dsimp only
      split_ifs <;> first | rfl | exact h

lemma execute_position_nonneg (e : SimulatedExecutor) (sig : Signal)
    (md : MarketData) (cfg : Config) (h : 0 ≤ e.position)
    (hs : 0 ≤ cfg.stakeSize) :
    0 ≤ (e.execute sig md cfg).2.position := by
  unfold SimulatedExecutor.execute
  split
  · exact h
  · cases sig
    · exact h
    · dsimp only
      split_ifs <;> first | exact h | exact hs
    · dsimp only
      split_ifs <;> first | exact h | exact le_rfl

lemma stepOp_peakPnL_le (e : SimulatedExecutor) (op : SimOp) :
    e.peakPnL ≤ (e.stepOp op).peakPnL := by
  cases op with
  | exec sig md cfg => exact execute_peakPnL_le e sig md cfg
  | cancel => exact le_rfl

lemma stepOp_mdd_mono (e : SimulatedExecutor) (op : SimOp)
    (h : e.maxDrawdownExceeded = true) :
    (e.stepOp op).maxDrawdownExceeded = true := by
  cases op with
  | exec sig md cfg => exact execute_mdd_mono e sig md cfg h
  | cancel => exact h

lemma stepOp_position_nonneg (e : SimulatedExecutor) (op : SimOp)
    (h : 0 ≤ e.position) (hs : op.stakeNonneg) :
    0 ≤ (e.stepOp op).position := by
  cases op with
  | exec sig md cfg => exact execute_position_nonneg e sig md cfg h hs
  | cancel => exact le_rfl

lemma runOps_peakPnL_le (ops : List SimOp) :
    ∀ e : SimulatedExecutor, e.peakPnL ≤ (e.runOps ops).peakPnL := by
  induction ops with
  | nil => intro e; exact le_rfl
  | cons op rest ih =>
    intro e
    exact le_trans (stepOp_peakPnL_le e op) (ih (e.stepOp op))

lemma runOps_mdd_mono (ops : List SimOp) :
    ∀ e : SimulatedExecutor, e.maxDrawdownExceeded = true →
      (e.runOps ops).maxDrawdownExceeded = true := by
  induction ops with
  | nil => intro e h; exact h
  | cons op rest ih =>
    intro e h
    exact ih (e.stepOp op) (stepOp_mdd_mono e op h)

lemma runOps_position_nonneg (ops : List SimOp) :
    ∀ e : SimulatedExecutor, 0 ≤ e.position →
      (∀ op ∈ ops, op.stakeNonneg) → 0 ≤ (e.runOps ops).position := by
  induction ops with
  | nil => intro e h _; exact h
  | cons op rest ih =>
    intro e h hall
    exact ih (e.stepOp op)
      (stepOp_position_nonneg e op h (hall op (List.mem_cons_self op rest)))
      (fun o ho => hall o (List.mem_cons_of_mem op ho))

/-- C6: over any sequence of Execute and CancelAll calls on a
simulated executor, `peakPnL` never decreases, and once
`maxDrawdownExceeded` is true it stays true. -/
theorem sim_peak_monotone_drawdown_sticky (e : SimulatedExecutor)
    (ops : List SimOp) :
    e.peakPnL ≤ (e.runOps ops).peakPnL ∧
    (e.maxDrawdownExceeded = true → (e.runOps ops).maxDrawdownExceeded = true) :=
  ⟨runOps_peakPnL_le ops e, runOps_mdd_mono ops e⟩

/-- Witness for C6: a concrete tripped executor stays tripped and its
peak does not decrease over a concrete call sequence. -/
theorem sim_peak_monotone_drawdown_sticky_witness :
    ({ maxDrawdownExceeded := true, peakPnL := 3 } :
        SimulatedExecutor).peakPnL ≤
      (({ maxDrawdownExceeded := true, peakPnL := 3 } :
        SimulatedExecutor).runOps
        [SimOp.exec Signal.sell { bid := 4, ask := 4, timestamp := 7 } {},
          SimOp.cancel]).peakPnL ∧
    (({ maxDrawdownExceeded := true, peakPnL := 3 } :
        SimulatedExecutor).runOps
        [SimOp.exec Signal.sell { bid := 4, ask := 4, timestamp := 7 } {},
          SimOp.cancel]).maxDrawdownExceeded = true :=
  ⟨(sim_peak_monotone_drawdown_sticky { maxDrawdownExceeded := true, peakPnL := 3 }
      [SimOp.exec Signal.sell { bid := 4, ask := 4, timestamp := 7 } {},
        SimOp.cancel]).1,
    (sim_peak_monotone_drawdown_sticky { maxDrawdownExceeded := true, peakPnL := 3 }
      [SimOp.exec Signal.sell { bid := 4, ask := 4, timestamp := 7 } {},
        SimOp.cancel]).2 rfl⟩

lemma execute_buy_noop (e : SimulatedExecutor) (md : MarketData)
    (cfg : Config) (h : e.position ≠ 0) :
    (e.execute Signal.buy md cfg).1 = Except.ok () ∧
    (e.execute Signal.buy md cfg).2.position = e.position ∧
    (e.execute Signal.buy md cfg).2.entryPrice = e.entryPrice ∧
    (e.execute Signal.buy md cfg).2.totalPnL = e.totalPnL ∧
    (e.execute Signal.buy md cfg).2.peakPnL = e.peakPnL ∧
    (e.execute Signal.buy md cfg).2.maxDrawdownExceeded = e.maxDrawdownExceeded := by
  unfold SimulatedExecutor.execute
  split
  · exact ⟨rfl, rfl, rfl, rfl, rfl, rfl⟩
  · dsimp only
    rw [if_pos h]
    exact ⟨rfl, rfl, rfl, rfl, rfl, rfl⟩

lemma execute_sell_noop (e : SimulatedExecutor) (md : MarketData)
    (cfg : Config) (h : e.position = 0) :
    (e.execute Signal.sell md cfg).1 = Except.ok () ∧
    (e.execute Signal.sell md cfg).2.position = e.position ∧
    (e.execute Signal.sell md cfg).2.entryPrice = e.entryPrice ∧
    (e.execute Signal.sell md cfg).2.totalPnL = e.totalPnL ∧
    (e.execute Signal.sell md cfg).2.peakPnL = e.peakPnL ∧
    (e.execute Signal.sell md cfg).2.maxDrawdownExceeded = e.maxDrawdownExceeded := by
  unfold SimulatedExecutor.execute
  split
  · exact ⟨rfl, rfl, rfl, rfl, rfl, rfl⟩
  · dsimp only
    rw [if_pos h]
    exact ⟨rfl, h ▸ rfl, rfl, rfl, rfl, rfl⟩

lemma luno_execute_position_nonneg (e : LunoExecutor) (sig : Signal)
    (md : MarketData) (cfg : Config) (ok : Bool) (h : 0 ≤ e.position)
    (hs : 0 ≤ cfg.stakeSize) :
    0 ≤ (e.execute sig md cfg ok).2.position := by
  unfold LunoExecutor.execute
  cases sig
  · exact h
  · dsimp only
    split_ifs <;> first | exact h | exact hs
  · dsimp only
    split_ifs <;> first | exact h | exact le_rfl

lemma luno_runOps_position_nonneg
    (calls : List (Signal × MarketData × Config × Bool)) :
    ∀ e : LunoExecutor, 0 ≤ e.position →
      (∀ c ∈ calls, 0 ≤ c.2.2.1.stakeSize) →
      0 ≤ (e.runOps calls).position := by
  induction calls with
  | nil => intro e h _; exact h
  | cons c rest ih =>
    intro e h hall
    obtain ⟨sig, md, cfg, ok⟩ := c
    exact ih _
      (luno_execute_position_nonneg e sig md cfg ok h
        (hall _ (List.mem_cons_self _ rest)))
      (fun o ho => hall o (List.mem_cons_of_mem _ ho))

lemma luno_execute_buy_noop (e : LunoExecutor) (md : MarketData)
    (cfg : Config) (ok : Bool) (h : e.position ≠ 0) :
    e.execute Signal.buy md cfg ok = (Except.ok (), e) := by
  unfold LunoExecutor.execute
  dsimp only
  rw [if_pos h]

lemma luno_execute_sell_noop (e : LunoExecutor) (md : MarketData)
    (cfg : Config) (ok : Bool) (h : e.position = 0) :
    e.execute Signal.sell md cfg ok = (Except.ok (), e) := by
  unfold LunoExecutor.execute
  dsimp only
  rw [if_pos h]

/-- C5 counterexample: on the simulated executor, a Buy while already
positioned is not free of state change — with `lastTradeTime = 0` and
a quote at time 5 the call returns success, touches no ledger field,
but still overwrites `lastTradeTime` with 5. -/
theorem sim_buy_noop_updates_lastTradeTime :
    ({ position := 1, entryPrice := 100 } :
        SimulatedExecutor).position ≠ 0 ∧
    (SimulatedExecutor.execute { position := 1, entryPrice := 100 }
        Signal.buy { bid := 7, ask := 7, timestamp := 5 } {}).1 = Except.ok () ∧
    (SimulatedExecutor.execute { position := 1, entryPrice := 100 }
        Signal.buy { bid := 7, ask := 7, timestamp := 5 } {}).2 ≠
      { position := 1, entryPrice := 100 } := by
  refine ⟨by norm_num, ?_, ?_⟩
  · norm_num [SimulatedExecutor.execute]
  · intro hcontra
    have h5 : (SimulatedExecutor.execute { position := 1, entryPrice := 100 }
        Signal.buy { bid := 7, ask := 7, timestamp := 5 } {}).2.lastTradeTime =
        5 := by
      norm_num [SimulatedExecutor.execute]
    rw [hcontra] at h5
    norm_num at h5

/-- C5 amended: the position invariant — never negative under
non-negative stakes, for both the simulated and the live executor over
arbitrary call sequences; a Buy while positioned and a Sell while flat
return success and leave every ledger field unchanged, except that the
simulated executor may still refresh `lastTradeTime`; the live
executor's no-ops leave its state entirely unchanged. -/
theorem position_invariant_one_open_lot :
    (∀ (e : SimulatedExecutor) (ops : List SimOp), 0 ≤ e.position →
      (∀ op ∈ ops, op.stakeNonneg) → 0 ≤ (e.runOps ops).position) ∧
    (∀ (e : SimulatedExecutor) (md : MarketData) (cfg : Config),
      e.position ≠ 0 →
        (e.execute Signal.buy md cfg).1 = Except.ok () ∧
        (e.execute Signal.buy md cfg).2.position = e.position ∧
        (e.execute Signal.buy md cfg).2.entryPrice = e.entryPrice ∧
        (e.execute Signal.buy md cfg).2.totalPnL = e.totalPnL ∧
        (e.execute Signal.buy md cfg).2.peakPnL = e.peakPnL ∧
        (e.execute Signal.buy md cfg).2.maxDrawdownExceeded =
          e.maxDrawdownExceeded) ∧
    (∀ (e : SimulatedExecutor) (md : MarketData) (cfg : Config),
      e.position = 0 →
        (e.execute Signal.sell md cfg).1 = Except.ok () ∧
        (e.execute Signal.sell md cfg).2.position = e.position ∧
        (e.execute Signal.sell md cfg).2.entryPrice = e.entryPrice ∧
        (e.execute Signal.sell md cfg).2.totalPnL = e.totalPnL ∧
        (e.execute Signal.sell md cfg).2.peakPnL = e.peakPnL ∧
        (e.execute Signal.sell md cfg).2.maxDrawdownExceeded =
          e.maxDrawdownExceeded) ∧
    (∀ (e : LunoExecutor) (calls : List (Signal × MarketData × Config × Bool)),
      0 ≤ e.position → (∀ c ∈ calls, 0 ≤ c.2.2.1.stakeSize) →
        0 ≤ (e.runOps calls).position) ∧
    (∀ (e : LunoExecutor) (md : MarketData) (cfg : Config) (ok : Bool),
      e.position ≠ 0 → e.execute Signal.buy md cfg ok = (Except.ok (), e)) ∧
    (∀ (e : LunoExecutor) (md : MarketData) (cfg : Config) (ok : Bool),
      e.position = 0 → e.execute Signal.sell md cfg ok = (Except.ok (), e)) :=
  ⟨fun e ops h hall => runOps_position_nonneg ops e h hall,
    execute_buy_noop, execute_sell_noop,
    fun e calls h hall => luno_runOps_position_nonneg calls e h hall,
    luno_execute_buy_noop, luno_execute_sell_noop⟩

/-- Witness for C5 at concrete executors, quotes and call lists. -/
theorem position_invariant_one_open_lot_witness :
    0 ≤ (SimulatedExecutor.runOps {}
      [SimOp.exec Signal.buy { bid := 2, ask := 2, timestamp := 1 }
        { stakeSize := 3, positionLimit := 9 }, SimOp.cancel]).position ∧
    (SimulatedExecutor.execute { position := 1 } Signal.buy
      { bid := 2, ask := 2, timestamp := 1 } {}).1 = Except.ok () ∧
    (SimulatedExecutor.execute { position := 0 } Signal.sell
      { bid := 2, ask := 2, timestamp := 1 } {}).1 = Except.ok () ∧
    0 ≤ (LunoExecutor.runOps {}
      [(Signal.buy, { bid := 2, ask := 2, timestamp := 1 },
        { stakeSize := 3, positionLimit := 9 }, true)]).position ∧
    LunoExecutor.execute { position := 1 } Signal.buy
      { bid := 2, ask := 2, timestamp := 1 } {} true = (Except.ok (), { position := 1 }) ∧
    LunoExecutor.execute { position := 0 } Signal.sell
      { bid := 2, ask := 2, timestamp := 1 } {} false = (Except.ok (), { position := 0 }) :=
  ⟨position_invariant_one_open_lot.1 {} _ (by norm_num)
      (by intro op hop; fin_cases hop <;> simp [SimOp.stakeNonneg]),
    (position_invariant_one_open_lot.2.1 { position := 1 } _ _ (by norm_num)).1,
    (position_invariant_one_open_lot.2.2.1 { position := 0 } _ _ (by norm_num)).1,
    position_invariant_one_open_lot.2.2.2.1 {} _ (by norm_num)
      (by intro c hc; fin_cases hc <;> norm_num),
    position_invariant_one_open_lot.2.2.2.2.1 { position := 1 } _ _ true (by norm_num),
    position_invariant_one_open_lot.2.2.2.2.2 { position := 0 } _ _ false (by norm_num)⟩

lemma ite_buy_ne_sell {α : Sort _} (a b : α) :
    (if Signal.buy = Signal.sell then a else b) = b :=
  if_neg (fun h => Signal.noConfusion h)

lemma ite_sell_eq_sell {α : Sort _} (a b : α) :
    (if Signal.sell = Signal.sell then a else b) = a :=
  if_pos rfl

/-- C3 counterexample: two order books that agree on their top
`vwapOrderbookDepthLevels = 2` ask levels yield different Buy slice
weights (the third level's volume matters), so the weights are not a
function of the top `depthLevels` levels; the code's weights also
differ from the spec-modelled top-`depthLevels` computation on the
first book. -/
theorem orderbook_weights_depth_levels_cex :
    (OrderBook.mk [] [⟨100, 1⟩, ⟨101, 1⟩, ⟨102, 4⟩]).asks.take 2 =
      (OrderBook.mk [] [⟨100, 1⟩, ⟨101, 1⟩, ⟨102, 10⟩]).asks.take 2 ∧
    VWAPExecutor.computeOrderbookWeights
        (Option.some (OrderBook.mk [] [⟨100, 1⟩, ⟨101, 1⟩, ⟨102, 4⟩]))
        { vwapOrderbookDepthLevels := 2 } Signal.buy 2 ≠
      VWAPExecutor.computeOrderbookWeights
        (Option.some (OrderBook.mk [] [⟨100, 1⟩, ⟨101, 1⟩, ⟨102, 10⟩]))
        { vwapOrderbookDepthLevels := 2 } Signal.buy 2 ∧
    VWAPExecutor.computeOrderbookWeights
        (Option.some (OrderBook.mk [] [⟨100, 1⟩, ⟨101, 1⟩, ⟨102, 4⟩]))
        { vwapOrderbookDepthLevels := 2 } Signal.buy 2 ≠
      computeOrderbookWeightsSpec
        (Option.some (OrderBook.mk [] [⟨100, 1⟩, ⟨101, 1⟩, ⟨102, 4⟩]))
        { vwapOrderbookDepthLevels := 2 } Signal.buy 2 := by
  refine ⟨rfl, ?_, ?_⟩ <;>
    norm_num [VWAPExecutor.computeOrderbookWeights,
      computeOrderbookWeightsSpec, bucketWeights, List.range_succ,
      ite_buy_ne_sell]

/-- C3 amended: the orderbook VWAP weights ignore
`config.VWAPOrderbookDepthLevels` (indeed the whole config) and are
computed from ALL price levels returned for the side matching the
signal direction — asks for a Buy, bids for a Sell — partitioned into
N contiguous depth buckets weighted by volume share; concretely a
three-level ask book with volumes [1,1,4] and N=2 gives weights
[1/6, 5/6]. -/
theorem orderbook_weights_all_levels :
    (∀ (ob : Option OrderBook) (cfg cfg' : Config) (sig : Signal) (N : ℕ),
      VWAPExecutor.computeOrderbookWeights ob cfg sig N =
        VWAPExecutor.computeOrderbookWeights ob cfg' sig N) ∧
    (∀ (bids bids' asks : List OrderBookEntry) (cfg : Config) (N : ℕ),
      VWAPExecutor.computeOrderbookWeights
          (Option.some (OrderBook.mk bids asks)) cfg Signal.buy N =
        VWAPExecutor.computeOrderbookWeights
          (Option.some (OrderBook.mk bids' asks)) cfg Signal.buy N) ∧
    (∀ (bids asks asks' : List OrderBookEntry) (cfg : Config) (N : ℕ),
      VWAPExecutor.computeOrderbookWeights
          (Option.some (OrderBook.mk bids asks)) cfg Signal.sell N =
        VWAPExecutor.computeOrderbookWeights
          (Option.some (OrderBook.mk bids asks')) cfg Signal.sell N) ∧
    VWAPExecutor.computeOrderbookWeights
        (Option.some (OrderBook.mk [] [⟨100, 1⟩, ⟨101, 1⟩, ⟨102, 4⟩]))
        {} Signal.buy 2 = [1/6, 5/6] := by
  refine ⟨fun ob cfg cfg' sig N => rfl, fun bids bids' asks cfg N => rfl,
    fun bids asks asks' cfg N => rfl, ?_⟩
  norm_num [VWAPExecutor.computeOrderbookWeights, bucketWeights,
    List.range_succ, ite_buy_ne_sell]

lemma list_range_map_sum (f : ℕ → ℚ) (n : ℕ) :
    ((List.range n).map f).sum = ∑ i ∈ Finset.range n, f i := by
  induction n with
  | zero => simp
  | succ k ih => simp [List.range_succ, Finset.sum_range_succ, ih]

lemma sum_take_add_seg (l : List ℚ) (a b : ℕ) (h : a ≤ b) :
    (l.take a).sum + ((l.drop a).take (b - a)).sum = (l.take b).sum := by
  conv_rhs => rw [← Nat.add_sub_cancel' h, List.take_add, List.sum_append]

lemma bucketSegs_sum (vols : List ℚ) (N : ℕ) (hN : 0 < N) :
    (∑ i ∈ Finset.range N,
      ((vols.drop (i * vols.length / N)).take
        ((if i = N - 1 then vols.length else (i + 1) * vols.length / N) -
          i * vols.length / N)).sum) = vols.sum := by
  set n := vols.length with hn
  have cut_le : ∀ j : ℕ, j ≤ N → j * n / N ≤ n := by
    intro j hj
    calc j * n / N ≤ N * n / N :=
          Nat.div_le_div_right (Nat.mul_le_mul_right n hj)
      _ = n := Nat.mul_div_cancel_left n hN
  have key : ∀ k : ℕ, k ≤ N →
      (∑ i ∈ Finset.range k,
        ((vols.drop (i * n / N)).take
          ((if i = N - 1 then n else (i + 1) * n / N) - i * n / N)).sum) =
      (vols.take (if k = N then n else k * n / N)).sum := by
    intro k
    induction k with
    | zero =>
      intro _
      rcases eq_or_ne 0 N with h0 | h0
      · omega
      · simp [if_neg h0]
    | succ k ih =>
      intro hk1
      have hkN : k < N := Nat.lt_of_succ_le hk1
      rw [Finset.sum_range_succ, ih (le_of_lt hkN)]
      rw [if_neg (Nat.ne_of_lt hkN)]
      rcases eq_or_ne (k + 1) N with hEnd | hMid
      · have hklast : k = N - 1 := by omega
        rw [if_pos hklast, if_pos hEnd]
        exact sum_take_add_seg vols (k * n / N) n (cut_le k (le_of_lt hkN))
      · have hknot : k ≠ N - 1 := by omega
        rw [if_neg hknot, if_neg hMid]
        exact sum_take_add_seg vols (k * n / N) ((k + 1) * n / N)
          (Nat.div_le_div_right (Nat.mul_le_mul_right n (Nat.le_succ k)))
  have h2 := key N (le_refl N)
  rw [if_pos rfl] at h2
  have h3 : List.take n vols = vols := by
    rw [hn]
    exact List.take_length vols
  rw [h3] at h2
  exact h2

lemma replicate_inv_sum (N : ℕ) (hN : 0 < N) :
    (List.replicate N (1 / (N : ℚ))).sum = 1 := by
  rw [List.sum_replicate, nsmul_eq_mul, mul_one_div,
    div_self (Nat.cast_ne_zero.mpr hN.ne')]

lemma bucketWeights_length (vols : List ℚ) (N : ℕ) :
    (bucketWeights vols N).length = N := by
  simp [bucketWeights]

lemma bucketWeights_sum (vols : List ℚ) (N : ℕ) (hN : 0 < N) :
    (bucketWeights vols N).sum = 1 := by
  simp only [bucketWeights]
  rw [list_range_map_sum]
  by_cases htot : 0 < vols.sum
  · simp only [if_pos htot]
    rw [← Finset.sum_div, bucketSegs_sum vols N hN, div_self (ne_of_gt htot)]
  · simp only [if_neg htot]
    rw [Finset.sum_const, Finset.card_range, nsmul_eq_mul, mul_one_div,
      div_self (Nat.cast_ne_zero.mpr hN.ne')]

lemma computeHistoricalWeights_length (candles : Option (List ℚ)) (N : ℕ) :
    (VWAPExecutor.computeHistoricalWeights candles N).length = N := by
  unfold VWAPExecutor.computeHistoricalWeights
  cases candles with
  | none => simp
  | some vols =>
    by_cases h : vols.length = 0 <;>
      simp [h, bucketWeights_length]

lemma computeHistoricalWeights_sum (candles : Option (List ℚ)) (N : ℕ)
    (hN : 0 < N) :
    (VWAPExecutor.computeHistoricalWeights candles N).sum = 1 := by
  unfold VWAPExecutor.computeHistoricalWeights
  cases candles with
  | none => exact replicate_inv_sum N hN
  | some vols =>
    by_cases h : vols.length = 0
    · simp only [if_pos h]
      exact replicate_inv_sum N hN
    · simp only [if_neg h]
      exact bucketWeights_sum vols N hN

lemma computeOrderbookWeights_length (ob : Option OrderBook) (cfg : Config)
    (sig : Signal) (N : ℕ) :
    (VWAPExecutor.computeOrderbookWeights ob cfg sig N).length = N := by
  unfold VWAPExecutor.computeOrderbookWeights
  cases ob with
  | none => simp
  | some book =>
    by_cases h : (if sig = Signal.sell then book.bids else book.asks).length = 0 <;>
      simp [h, bucketWeights_length]

lemma computeOrderbookWeights_sum (ob : Option OrderBook) (cfg : Config)
    (sig : Signal) (N : ℕ) (hN : 0 < N) :
    (VWAPExecutor.computeOrderbookWeights ob cfg sig N).sum = 1 := by
  unfold VWAPExecutor.computeOrderbookWeights
  cases ob with
  | none => exact replicate_inv_sum N hN
  | some book =>
    by_cases h : (if sig = Signal.sell then book.bids else book.asks).length = 0
    · simp only [if_pos h]
      exact replicate_inv_sum N hN
    · simp only [if_neg h]
      exact bucketWeights_sum _ N hN

lemma zipWith_blend_sum (w : ℚ) :
    ∀ (h b : List ℚ), h.length = b.length →
      (List.zipWith (fun x y => w * x + (1 - w) * y) h b).sum =
        w * h.sum + (1 - w) * b.sum := by
  intro h
  induction h with
  | nil =>
    intro b hb
    simp [(List.length_eq_zero.mp hb.symm)]
  | cons x rest ih =>
    intro b hb
    cases b with
    | nil => simp at hb
    | cons y tb =>
      have : rest.length = tb.length := by simpa using hb
      simp only [List.zipWith_cons_cons, List.sum_cons, ih tb this]
      ring

lemma computeWeights_length (cfg : Config) (sig : Signal)
    (candles : Option (List ℚ)) (ob : Option OrderBook) (N : ℕ) :
    (VWAPExecutor.computeWeights cfg sig candles ob N).length = N := by
  unfold VWAPExecutor.computeWeights
  split
  · exact computeHistoricalWeights_length candles N
  · exact computeOrderbookWeights_length ob cfg sig N
  · rw [List.length_zipWith, computeHistoricalWeights_length,
      computeOrderbookWeights_length, min_self]
  · simp

lemma computeWeights_sum (cfg : Config) (sig : Signal)
    (candles : Option (List ℚ)) (ob : Option OrderBook) (N : ℕ) (hN : 0 < N) :
    (VWAPExecutor.computeWeights cfg sig candles ob N).sum = 1 := by
  unfold VWAPExecutor.computeWeights
  split
  · exact computeHistoricalWeights_sum candles N hN
  · exact computeOrderbookWeights_sum ob cfg sig N hN
  · rw [zipWith_blend_sum cfg.vwapHybridWeight _ _
      (by rw [computeHistoricalWeights_length, computeOrderbookWeights_length]),
      computeHistoricalWeights_sum candles N hN,
      computeOrderbookWeights_sum ob cfg sig N hN]
    ring
  · exact replicate_inv_sum N hN

lemma sum_map_mul_const (a : ℚ) (l : List ℚ) :
    (l.map (fun w => a * w)).sum = a * l.sum := by
  induction l with
  | nil => simp
  | cons x rest ih => simp [ih]; ring

/-- C8: for every VWAP source (historical, orderbook, hybrid, or the
equal-weight fallback) and every N ≥ 1, the N computed slice weights
sum to exactly 1, and the per-slice stake sizes persisted over a fully
completed execution sum to exactly the original `config.StakeSize`. -/
theorem vwap_weights_sum_one (cfg : Config) (sig : Signal)
    (candles : Option (List ℚ)) (ob : Option OrderBook) (N : ℕ)
    (hN : 0 < N) :
    (VWAPExecutor.computeWeights cfg sig candles ob N).length = N ∧
    (VWAPExecutor.computeWeights cfg sig candles ob N).sum = 1 ∧
    (VWAPExecutor.sliceSizes cfg
      (VWAPExecutor.computeWeights cfg sig candles ob N)).sum = cfg.stakeSize := by
  refine ⟨computeWeights_length cfg sig candles ob N,
    computeWeights_sum cfg sig candles ob N hN, ?_⟩
  unfold VWAPExecutor.sliceSizes
  rw [sum_map_mul_const, computeWeights_sum cfg sig candles ob N hN, mul_one]

/-- Witness for C8: a hybrid-source executor over a concrete candle
history and order book with two slices. -/
theorem vwap_weights_sum_one_witness :
    (0 : ℕ) < 2 ∧
    (VWAPExecutor.computeWeights
      { vwapSource := "hybrid", vwapHybridWeight := 1/3, stakeSize := 7 }
      Signal.buy (Option.some [1, 2, 3])
      (Option.some (OrderBook.mk [] [⟨100, 1⟩, ⟨101, 1⟩, ⟨102, 4⟩])) 2).sum = 1 ∧
    (VWAPExecutor.sliceSizes
      { vwapSource := "hybrid", vwapHybridWeight := 1/3, stakeSize := 7 }
      (VWAPExecutor.computeWeights
        { vwapSource := "hybrid", vwapHybridWeight := 1/3, stakeSize := 7 }
        Signal.buy (Option.some [1, 2, 3])
        (Option.some (OrderBook.mk [] [⟨100, 1⟩, ⟨101, 1⟩, ⟨102, 4⟩])) 2)).sum = 7 :=
  ⟨by norm_num,
    (vwap_weights_sum_one
      { vwapSource := "hybrid", vwapHybridWeight := 1/3, stakeSize := 7 }
      Signal.buy (Option.some [1, 2, 3])
      (Option.some (OrderBook.mk [] [⟨100, 1⟩, ⟨101, 1⟩, ⟨102, 4⟩])) 2
      (by norm_num)).2.1,
    (vwap_weights_sum_one
      { vwapSource := "hybrid", vwapHybridWeight := 1/3, stakeSize := 7 }
      Signal.buy (Option.some [1, 2, 3])
      (Option.some (OrderBook.mk [] [⟨100, 1⟩, ⟨101, 1⟩, ⟨102, 4⟩])) 2
      (by norm_num)).2.2⟩

lemma thresholdGrid_concrete :
    thresholdGrid (1/100) (1/20) (1/25) = [1/100, 1/20] := by
  have hfloor : (⌊((1 : ℚ)/20 - 1/100) / (1/25)⌋) = 1 := by
    norm_num
  unfold thresholdGrid
  rw [hfloor]
  norm_num [thresholdGridAux]

lemma gridCombos_concrete :
    gridCombos (1/100) (1/20) (1/25) =
      [(1/100, 1/100), (1/100, 1/20), (1/20, 1/100), (1/20, 1/20)] := by
  unfold gridCombos
  rw [thresholdGrid_concrete]
  rfl

lemma foldl_bestStep_spec (closes : List ℚ) (fee : ℚ) :
    ∀ (l : List (ℚ × ℚ)) (b : ThresholdResult),
      ∃ r, l.foldl (bestStep closes fee) (Option.some b) = Option.some r ∧
        ((r = b ∧ ∀ c ∈ l, (comboResult closes fee c).totalPnl ≤ b.totalPnl) ∨
         (∃ l₁ c l₂, l = l₁ ++ c :: l₂ ∧ r = comboResult closes fee c ∧
           b.totalPnl < r.totalPnl ∧
           (∀ d ∈ l₁, (comboResult closes fee d).totalPnl < r.totalPnl) ∧
           (∀ d ∈ l₂, (comboResult closes fee d).totalPnl ≤ r.totalPnl))) := by
  intro l
  induction l with
  | nil =>
    intro b
    exact ⟨b, rfl, Or.inl ⟨rfl, by simp⟩⟩
  | cons c rest ih =>
    intro b
    by_cases hgt : (comboResult closes fee c).totalPnl > b.totalPnl
    · obtain ⟨r, hr, hcase⟩ := ih (comboResult closes fee c)
      have hstep : bestStep closes fee (Option.some b) c =
          Option.some (comboResult closes fee c) := by
        simp only [bestStep]
        rw [if_pos hgt]
      refine ⟨r, by rw [List.foldl_cons, hstep]; exact hr, Or.inr ?_⟩
      rcases hcase with ⟨req, hall⟩ | ⟨l₁, c', l₂, hsplit, hr2, hlt, h₁, h₂⟩
      · refine ⟨[], c, rest, by simp, req, ?_, by simp, ?_⟩
        · rw [req]; exact hgt
        · intro d hd; rw [req]; exact hall d hd
      · refine ⟨c :: l₁, c', l₂, by simp [hsplit], hr2, lt_trans hgt hlt, ?_, h₂⟩
        intro d hd
        rcases List.mem_cons.mp hd with hdc | hdl
        · rw [hdc]; exact hlt
        · exact h₁ d hdl
    · push_neg at hgt
      obtain ⟨r, hr, hcase⟩ := ih b
      have hstep : bestStep closes fee (Option.some b) c = Option.some b := by
        simp only [bestStep]
        rw [if_neg (not_lt.mpr hgt)]
      refine ⟨r, by rw [List.foldl_cons, hstep]; exact hr, ?_⟩
      rcases hcase with ⟨req, hall⟩ | ⟨l₁, c', l₂, hsplit, hr2, hlt, h₁, h₂⟩
      · refine Or.inl ⟨req, ?_⟩
        intro d hd
        rcases List.mem_cons.mp hd with hdc | hdl
        · rw [hdc]; exact hgt
        · exact hall d hdl
      · refine Or.inr ⟨c :: l₁, c', l₂, by simp [hsplit], hr2, hlt, ?_, h₂⟩
        intro d hd
        rcases List.mem_cons.mp hd with hdc | hdl
        · rw [hdc]; exact lt_of_le_of_lt hgt hlt
        · exact h₁ d hdl

lemma runSearch_first_max (closes : List ℚ) (fee start stop step : ℚ)
    (r : ThresholdResult)
    (h : runThresholdGridSearch closes fee start stop step = Option.some r) :
    ∃ l₁ c l₂, gridCombos start stop step = l₁ ++ c :: l₂ ∧
      r = comboResult closes fee c ∧
      (∀ d ∈ l₁, (comboResult closes fee d).totalPnl < r.totalPnl) ∧
      (∀ d ∈ l₂, (comboResult closes fee d).totalPnl ≤ r.totalPnl) := by
  unfold runThresholdGridSearch at h
  cases hcombos : gridCombos start stop step with
  | nil =>
    rw [hcombos] at h
    simp at h
  | cons c rest =>
    rw [hcombos, List.foldl_cons] at h
    have hfirst : bestStep closes fee Option.none c =
        Option.some (comboResult closes fee c) := rfl
    rw [hfirst] at h
    obtain ⟨r', hr', hcase⟩ := foldl_bestStep_spec closes fee rest
      (comboResult closes fee c)
    rw [hr'] at h
    have hrr : r' = r := Option.some.inj h
    subst hrr
    rcases hcase with ⟨req, hall⟩ | ⟨l₁, c', l₂, hsplit, hr2, hlt, h₁, h₂⟩
    · refine ⟨[], c, rest, by simp, req, by simp, ?_⟩
      intro d hd
      rw [req]
      exact hall d hd
    · refine ⟨c :: l₁, c', l₂, by simp [hsplit], hr2, ?_, h₂⟩
      intro d hd
      rcases List.mem_cons.mp hd with hdc | hdl
      · rw [hdc]; exact hlt
      · exact h₁ d hdl

lemma runSearch_isSome (closes : List ℚ) (fee start stop step : ℚ)
    (h : gridCombos start stop step ≠ []) :
    ∃ r, runThresholdGridSearch closes fee start stop step = Option.some r := by
  unfold runThresholdGridSearch
  cases hcombos : gridCombos start stop step with
  | nil => exact absurd hcombos h
  | cons c rest =>
    rw [List.foldl_cons]
    have hfirst : bestStep closes fee Option.none c =
        Option.some (comboResult closes fee c) := rfl
    rw [hfirst]
    obtain ⟨r, hr, _⟩ := foldl_bestStep_spec closes fee rest
      (comboResult closes fee c)
    exact ⟨r, hr⟩

/-- C7: with gridStart 0.01, gridEnd 0.05, gridStep 0.04 the loop
visits exactly the grid [0.01, 0.05] and the four combinations
(0.01,0.01),(0.01,0.05),(0.05,0.01),(0.05,0.05) in
ascending-entry-then-ascending-exit order; for any closes, fee and
grid, a returned result is the first combination (in that order) whose
total PnL strictly exceeds every earlier one and is not exceeded by
any later one, i.e. the strictly-highest-PnL combination with ties
broken by iteration order; and a non-empty grid always produces a
result. -/
theorem thresholds_grid_search_spec :
    thresholdGrid (1/100) (1/20) (1/25) = [1/100, 1/20] ∧
    gridCombos (1/100) (1/20) (1/25) =
      [(1/100, 1/100), (1/100, 1/20), (1/20, 1/100), (1/20, 1/20)] ∧
    (∀ (closes : List ℚ) (fee start stop step : ℚ) (r : ThresholdResult),
      runThresholdGridSearch closes fee start stop step = Option.some r →
      ∃ l₁ c l₂, gridCombos start stop step = l₁ ++ c :: l₂ ∧
        r = comboResult closes fee c ∧
        (∀ d ∈ l₁, (comboResult closes fee d).totalPnl < r.totalPnl) ∧
        (∀ d ∈ l₂, (comboResult closes fee d).totalPnl ≤ r.totalPnl)) ∧
    (∀ (closes : List ℚ) (fee start stop step : ℚ),
      gridCombos start stop step ≠ [] →
      ∃ r, runThresholdGridSearch closes fee start stop step = Option.some r) :=
  ⟨thresholdGrid_concrete, gridCombos_concrete,
    runSearch_first_max, runSearch_isSome⟩

/-- Witness for C7: Scenario E's candle closes with the concrete grid
produce a result. -/
theorem thresholds_grid_search_spec_witness :
    gridCombos (1/100) (1/20) (1/25) ≠ [] ∧
    ∃ r, runThresholdGridSearch [100, 105, 95, 100] 0 (1/100) (1/20) (1/25) =
      Option.some r :=
  ⟨by rw [gridCombos_concrete]; simp,
    thresholds_grid_search_spec.2.2.2 [100, 105, 95, 100] 0 (1/100) (1/20) (1/25)
      (by rw [gridCombos_concrete]; simp)⟩

end Luno

